import Mathlib

/-!
Verification development for the QUBO solving engine of the
lava-optimization repository.

The repository's only file under src/ is the tutorial
`src/tutorials/tutorial_02_solving_qubos.py`, which drives the library's
`QUBO` problem class and generic `OptimizationSolver`.  The library code
itself (problem model, solver loop, stochastic update rule, synaptic
propagation) is code of this repository that is not under src/, so those
components are modelled from the spec (each such definition says so in
its doc comment).  The tutorial's own functions `setup` and `run` are
embedded directly from the source.

Machine reals of the source are modelled by `Int` (the tutorial's QUBO
matrices and costs are integer valued); vectors and matrices are lists.
-/

/-- Modelled from the spec (§7): the error kinds of the solving engine.
The library code raising them is not under src/. -/
inductive SolverError where
  | ConfigurationError
  | DimensionMismatch
  | InvalidHyperparameter
  | BackendUnavailable
deriving DecidableEq, Repr

/-- A matrix, as a list of rows, is square when every row is as long as
the list of rows. -/
def isSquare (m : List (List Int)) : Bool :=
  m.all (fun row => row.length = m.length)

/-- Modelled from the spec (§3, §4.1): the validated QUBO problem model.
The library class `lava.lib.optimization.problems.problems.QUBO` is not
under src/.  The matrix is immutable and carries its shape invariant. -/
structure QUBO where
  q : List (List Int)
  hsq : ∀ row ∈ q, row.length = q.length

/-- Modelled from the spec (§4.1): problem construction validates that the
matrix is square and fails with `DimensionMismatch` otherwise (§8: "a
malformed matrix (non-square, e.g. 3×4) must fail construction with
`DimensionMismatch`"). -/
def mkQUBO (m : List (List Int)) : Except SolverError QUBO :=
  if h : isSquare m = true then
    .ok ⟨m, by simpa [isSquare, List.all_eq_true] using h⟩
  else
    .error .DimensionMismatch

/-- Modelled from the spec (§4.1): `num_variables` is n. -/
def QUBO.num_variables (p : QUBO) : Nat := p.q.length

/-- Dot product of two integer vectors. -/
def dotProd (a b : List Int) : Int :=
  (List.zipWith (fun x y => x * y) a b).sum

/-- Matrix-vector product, row by row. -/
def matVec (m : List (List Int)) (x : List Int) : List Int :=
  m.map (fun row => dotProd row x)

/-- Modelled from the spec (§4.1): the cost `xᵗQx`, computed as the dot
product of x with Qx. -/
def costOf (p : QUBO) (x : List Int) : Int :=
  dotProd x (matVec p.q x)

/-- Modelled from the spec (§4.1): `evaluate_cost(x)` returns `xᵗQx` for a
vector of matching dimension and fails with `DimensionMismatch` when
`len(x) ≠ n`.  The library method `QUBO.evaluate_cost` is not under
src/. -/
def QUBO.evaluate_cost (p : QUBO) (x : List Int) : Except SolverError Int :=
  if x.length = p.num_variables then .ok (costOf p x)
  else .error .DimensionMismatch

/-- The quadratic form `xᵗQx` written as the spec writes it: the double
sum over all index pairs of `xᵢ · Qᵢⱼ · xⱼ`.  This is the spec-side
statement of the cost, to be compared with `costOf`. -/
def quadraticForm (m : List (List Int)) (x : List Int) : Int :=
  ∑ i in Finset.range x.length, ∑ j in Finset.range x.length,
    x.getD i 0 * (m.getD i []).getD j 0 * x.getD j 0

/-- A concrete validated 2×2 QUBO problem used to witness theorems. -/
def qEx : QUBO := ⟨[[1, 2], [3, 4]], by decide⟩

/-! ### Solver configuration and hyperparameters (spec §6, tutorial lines 151-177) -/

/-- The two execution backends of the tutorial: `'CPU'` (software) and
`'Loihi2'` (hardware-accelerated). -/
inductive Backend where
  | CPU
  | Loihi2
deriving DecidableEq, Repr

/-- The hyperparameter bundle of the tutorial (lines 151-154):
`temperature`, `noise_precision` and a per-variable `refract` vector. -/
structure Hyperparameters where
  temperature : Int
  noise_precision : Nat
  refract : List Nat
deriving DecidableEq, Repr

/-- The solver run configuration of `SolverConfig` (tutorial lines
171-176, spec §6): optional `timeout`, optional `target_cost`, a backend
and the hyperparameters. -/
structure SolverConfig where
  timeout : Option Nat
  target_cost : Option Int
  backend : Backend
  hyperparameters : Hyperparameters

/-- Modelled from the spec (§4.5, §7): construction of a run
configuration validates that at least one of `timeout` and `target_cost`
is supplied, else fails with `ConfigurationError`; the validating
library constructor is not under src/. -/
def mkSolverConfig (timeout : Option Nat) (target_cost : Option Int)
    (backend : Backend) (hp : Hyperparameters) : Except SolverError SolverConfig :=
  match timeout, target_cost with
  | none, none => .error .ConfigurationError
  | t, c => .ok ⟨t, c, backend, hp⟩

/-! ### Solver dynamics (spec §3, §4.2, §4.3, §4.5)

The library solver (`OptimizationSolver.solve`) is code of this
repository that is not under src/; the following dynamical system is
modelled from the spec.  Where the spec leaves the concrete mapping
open (the noise distribution and the potential-to-signal map, spec §9
"open question"), one concrete deterministic choice is made and
documented. -/

/-- Modelled from the spec (§4.2): one step of the bounded-range
pseudorandom source, as a linear congruential generator on 31 bits.
The spec requires only a deterministic, seedable, bounded source. -/
def prngNext (s : Nat) : Nat :=
  (s * 1103515245 + 12345) % 2 ^ 31

/-- Modelled from the spec (§4.2): a noise sample quantized to
`noise_precision` discrete levels, taken from the current PRNG state. -/
def noiseDraw (s : Nat) (precision : Nat) : Nat :=
  s % 2 ^ precision

/-- Modelled from the spec (§3): the per-variable neuron state. -/
structure NeuronState where
  potential : Int
  refractory_counter : Nat
  spiked_this_step : Bool
deriving DecidableEq, Repr

/-- Modelled from the spec (§4.2): the update of one neuron.  A neuron
in its refractory period is forced non-spiking and its counter
decrements; otherwise a fresh noise draw is taken and the neuron spikes
iff its potential exceeds the temperature-scaled noise draw (one
concrete monotone choice of the signal map).  A spiking neuron has its
refractory counter set to its `refract` entry. -/
def updateNeuron (hp : Hyperparameters) (refr : Nat) (rng : Nat)
    (ns : NeuronState) : NeuronState × Nat :=
  if ns.refractory_counter > 0 then
    ({ ns with spiked_this_step := false,
               refractory_counter := ns.refractory_counter - 1 }, rng)
  else
    let rng' := prngNext rng
    let noise := noiseDraw rng' hp.noise_precision
    let spike := hp.temperature * (noise : Int) < ns.potential
    ({ ns with spiked_this_step := spike,
               refractory_counter := if spike then refr else 0 }, rng')

/-- Modelled from the spec (§4.2): the synchronous update of all
neurons in one timestep, threading the PRNG state left to right. -/
def updateNeurons (hp : Hyperparameters) :
    List Nat → List NeuronState → Nat → List NeuronState × Nat
  | _, [], rng => ([], rng)
  | refrs, n :: ns, rng =>
      let first := updateNeuron hp (refrs.headD 0) rng n
      let rest := updateNeurons hp refrs.tail ns first.2
      (first.1 :: rest.1, rest.2)

/-- Modelled from the spec (§4.3): the off-diagonal synaptic input to
neuron `i`: the sum of `Q[i][j]` over every `j ≠ i` that spiked. -/
def synapticSum (row : List Int) (spikes : List Bool) (i : Nat) : Int :=
  (List.zip row spikes).enum.foldl
    (fun acc e => if e.2.2 = true ∧ e.1 ≠ i then acc + e.2.1 else acc) 0

/-- Modelled from the spec (§4.3): synaptic propagation.  Every neuron
`i` receives its diagonal bias `Q[i][i]` unconditionally plus the
off-diagonal contributions of this step's spikes; all updates are
computed from the pre-step potentials. -/
def propagate (q : List (List Int)) (spikes : List Bool)
    (ns : List NeuronState) : List NeuronState :=
  (List.zip ns q).enum.map (fun e =>
    { e.2.1 with
        potential := e.2.1.potential + (e.2.2.getD e.1 0) + synapticSum e.2.2 spikes e.1 })

/-- Modelled from the spec (§3): the run state owned by the solver
loop, extended with the spike trajectory (the per-timestep spike
vectors) so the determinism law can speak about it. -/
structure LoopState where
  neurons : List NeuronState
  rng : Nat
  timestep_count : Nat
  best_state : List Int
  best_cost : Int
  trajectory : List (List Bool)
deriving DecidableEq, Repr

/-- Modelled from the spec (§4.5, §2): one timestep: §4.2 update, then
§4.3 propagation; the current binary state is read off the spikes, its
cost evaluated, and the best state/cost updated when the cost is
strictly lower. -/
def stepTimestep (p : QUBO) (hp : Hyperparameters) (st : LoopState) : LoopState :=
  let upd := updateNeurons hp hp.refract st.neurons st.rng
  let spikes := upd.1.map NeuronState.spiked_this_step
  let neurons2 := propagate p.q spikes upd.1
  let current := spikes.map (fun b => if b then (1 : Int) else 0)
  let cost := costOf p current
  { neurons := neurons2
    rng := upd.2
    timestep_count := st.timestep_count + 1
    best_state := if cost < st.best_cost then current else st.best_state
    best_cost := if cost < st.best_cost then cost else st.best_cost
    trajectory := st.trajectory ++ [spikes] }

/-- Modelled from the spec (§4.5): the termination reasons. -/
inductive TermReason where
  | Converged
  | TimedOut
  | Failed
deriving DecidableEq, Repr

/-- Modelled from the spec (§4.5): the `Converged` test: true iff a
target cost is supplied and the best cost has reached it. -/
def targetReached : Option Int → Int → Bool
  | none, _ => false
  | some t, c => decide (c ≤ t)

/-- Modelled from the spec (§4.5): the solver loop on a timestep budget.
Each iteration executes one timestep, transitions to `Converged` when
the target cost is reached, and to `TimedOut` when the budget is
exhausted. -/
def solverLoop (p : QUBO) (hp : Hyperparameters) (tc : Option Int) :
    Nat → LoopState → LoopState × TermReason
  | 0, st => (st, TermReason.TimedOut)
  | fuel + 1, st =>
      let st' := stepTimestep p hp st
      if targetReached tc st'.best_cost then (st', TermReason.Converged)
      else solverLoop p hp tc fuel st'

/-- Modelled from the spec (§3, §4.5): the initial run state: potentials
and refractory counters at zero, no spikes yet, best state the all-zero
assignment (cost 0), PRNG at the explicit seed. -/
def initState (p : QUBO) (seed : Nat) : LoopState :=
  { neurons := List.replicate p.num_variables
      { potential := 0, refractory_counter := 0, spiked_this_step := false }
    rng := seed
    timestep_count := 0
    best_state := List.replicate p.num_variables 0
    best_cost := 0
    trajectory := [] }

/-- Modelled from the spec (§6): the Solver Report value object. -/
structure SolverReport where
  best_state : List Int
  best_cost : Int
  timesteps_run : Nat
  reason : TermReason
deriving DecidableEq, Repr

/-- Extract the report from a finished loop. -/
def mkReport (s : LoopState × TermReason) : SolverReport :=
  { best_state := s.1.best_state
    best_cost := s.1.best_cost
    timesteps_run := s.1.timestep_count
    reason := s.2 }

/-- Modelled from the spec (§4.5): a full run from an explicit seed.  A
run without a timestep budget is not representable as a total function
(it may search forever), so the result is `none` exactly when no
`timeout` is configured; every claim below concerns budgeted runs. -/
def solveFull (p : QUBO) (cfg : SolverConfig) (seed : Nat) :
    Option (LoopState × TermReason) :=
  cfg.timeout.map (fun T =>
    solverLoop p cfg.hyperparameters cfg.target_cost T (initState p seed))

/-- The Solver Report of a run (`solver.solve`, tutorial lines 170-177). -/
def solveReport (p : QUBO) (cfg : SolverConfig) (seed : Nat) : Option SolverReport :=
  (solveFull p cfg seed).map mkReport

/-- The full timestep-by-timestep spike trajectory of a run. -/
def spikeTrajectory (p : QUBO) (cfg : SolverConfig) (seed : Nat) :
    Option (List (List Bool)) :=
  (solveFull p cfg seed).map (fun s => s.1.trajectory)

/-- A concrete validated 1×1 QUBO problem used to witness run theorems. -/
def qW : QUBO := ⟨[[1]], by decide⟩

/-- Concrete hyperparameters used to witness run theorems. -/
def hpW : Hyperparameters :=
  { temperature := 1, noise_precision := 4, refract := [0] }

/-! ### The tutorial's `setup` (src/tutorials/tutorial_02_solving_qubos.py)

`setup` mutates process-global state (lines 55-61), seeds numpy and
builds the hyperparameter bundle (lines 150-154), and picks the backend
from ambient Loihi 2 availability (lines 156-159). -/

/-- Process-global state touched by `setup`: the class attribute
`Loihi2.preferred_partition` and the process environment, as a total map
from variable names to optional values. -/
structure ProcessState where
  preferred_partition : Option String
  env : String → Option String

/-- Update one environment variable (`os.environ[k] = v`). -/
def setEnv (e : String → Option String) (k v : String) : String → Option String :=
  fun k' => if k' = k then some v else e k'

/-- The process-global effect of `setup` (lines 55-61): it sets
`Loihi2.preferred_partition = "oheogulch"` unconditionally, then sets
the environment variable `SLURM` to `"1"` exactly when
`Loihi2.is_loihi2_available` reports hardware available.  No other
environment variable is touched (lines 31-32 of the source are
commented out). -/
def setupProcessEffect (loihi2_is_available : Bool) (p : ProcessState) : ProcessState :=
  let p1 : ProcessState := { p with preferred_partition := some "oheogulch" }
  if loihi2_is_available then { p1 with env := setEnv p1.env "SLURM" "1" }
  else p1

/-- The backend chosen by `setup` (lines 156-159): `'Loihi2'` when
ambient Loihi 2 hardware is reported available, `'CPU'` otherwise. -/
def setupBackend (loihi2_is_available : Bool) : Backend :=
  if loihi2_is_available then Backend.Loihi2 else Backend.CPU

/-- The global numpy pseudorandom generator state.  numpy is an external
collaborator; its generator is modelled as a deterministic LCG state.
The claims depend only on its determinism from the seed and the range of
`randint`. -/
structure NpRng where
  state : Nat
deriving DecidableEq, Repr

/-- `np.random.seed(s)`: resets the global generator to a state that is
a function of the seed alone. -/
def npSeed (s : Nat) : NpRng := ⟨prngNext s⟩

/-- `np.random.randint(lo, hi, n)` on the modelled generator: `n` draws,
each mapped into `[lo, hi)` (`lo + draw % (hi - lo)`). -/
def npRandintList (lo hi : Nat) : Nat → Nat → List Nat
  | 0, _ => []
  | n + 1, s => (lo + prngNext s % (hi - lo)) :: npRandintList lo hi n (prngNext s)

/-- The hyperparameter bundle built by `setup` (lines 150-154):
`np.random.seed(85134)` first resets the global numpy generator
(discarding whatever state `prior` it had), then
`temperature = 1`, `noise_precision = 16`, and
`refract = np.random.randint(5, 20, num_variables)`. -/
def setupHyperparameters (prior : NpRng) (num_variables : Nat) : Hyperparameters :=
  let rng := npSeed 85134
  { temperature := 1
    noise_precision := 16
    refract := npRandintList 5 20 num_variables rng.state }

/-! ### The tutorial's `run` and module scope (lines 165-200)

`run(hyperparameters, backend, solver, solution_loihi)` builds a
`SolverConfig` with `timeout=10000`, `target_cost=-5` and the given
backend, calls `solver.solve`, and then executes
`solution_loihi = solver_report.best_state` — a Python assignment that
only rebinds the *local* name (`run` has no `global` statement and
returns `None`), followed by a `print`. -/

/-- The `SolverConfig` constructed inside `run` (lines 171-176). -/
def runConfig (hp : Hyperparameters) (backend : Backend) : SolverConfig :=
  { timeout := some 10000
    target_cost := some (-5)
    backend := backend
    hyperparameters := hp }

/-- The local frame of one call to `run` at return time: the final value
of the local name `solution_loihi` and the line printed.  `run` returns
`None`, so the frame is the call's only product besides stdout. -/
structure RunFrame where
  solution_loihi : Option (List Int)
  printed : String

/-- The body of `run` (lines 165-181): solve with the config of lines
171-176, then rebind the local `solution_loihi` to the report's best
state and print.  The parameter `solution_loihi` is the caller's value;
the assignment on line 180 shadows it locally. -/
def run_fn (hp : Hyperparameters) (backend : Backend) (solver : QUBO)
    (solution_loihi : Option (List Int)) (seed : Nat) : RunFrame :=
  let report := solveReport solver (runConfig hp backend) seed
  let solution_loihi := report.map SolverReport.best_state
  { solution_loihi := solution_loihi
    printed := "Solution of the provided QUBO" }

/-- The module-level bindings of the tutorial's `__main__` block (lines
195-198) together with accumulated stdout. -/
structure ModuleState where
  hyperparams : Option Hyperparameters
  backend : Option Backend
  solution_loihi : Option (List Int)
  output : List String

/-- Fallback hyperparameters (never reached in the real control flow:
`setup` runs before `run`). -/
def defaultHyperparameters : Hyperparameters :=
  { temperature := 1, noise_precision := 16, refract := [] }

/-- One module-level call `run(hyperparams, backend, solver,
solution_loihi)` (line 200): Python call semantics pass the current
values of the globals into a fresh local frame; `run` declares no
`global` names and returns `None`, so the call's only effect on module
state is the printed line — in particular the module binding
`solution_loihi` is not written. -/
def callRun (g : ModuleState) (solver : QUBO) (seed : Nat) : ModuleState :=
  let frame := run_fn (g.hyperparams.getD defaultHyperparameters)
    (g.backend.getD Backend.CPU) solver g.solution_loihi seed
  { g with output := g.output ++ [frame.printed] }

/-- The module state right after line 199
(`hyperparams, backend, solver, mis, qubo_problem = setup()`): the
globals `hyperparams` and `backend` are rebound to `setup`'s results,
while `solution_loihi` keeps the `None` it was given on line 198. -/
def moduleAfterSetup (loihi2_is_available : Bool) (prior : NpRng)
    (num_variables : Nat) : ModuleState :=
  { hyperparams := some (setupHyperparameters prior num_variables)
    backend := some (setupBackend loihi2_is_available)
    solution_loihi := none
    output := [] }

/-- A concrete process state (empty environment) used to witness
theorems about `setup`'s process effect. -/
def procInit : ProcessState :=
  { preferred_partition := none, env := fun _ => none }

/-! ## Theorems -/

theorem dotProd_cons (a : Int) (as : List Int) (b : Int) (bs : List Int) :
    dotProd (a :: as) (b :: bs) = a * b + dotProd as bs := by
  simp [dotProd]

theorem dotProd_eq_sum (a b : List Int) (h : a.length ≤ b.length) :
    dotProd a b = ∑ i in Finset.range a.length, a.getD i 0 * b.getD i 0 := by
  induction a generalizing b with
  | nil => simp [dotProd]
  | cons x xs ih =>
    cases b with
    | nil => simp at h
    | cons y ys =>
      rw [dotProd_cons, ih ys (by simpa using h)]
      rw [List.length_cons, Finset.sum_range_succ']
      simp only [List.getD_cons_succ, List.getD_cons_zero]
      ring

theorem matVec_length (m : List (List Int)) (x : List Int) :
    (matVec m x).length = m.length := by
  simp [matVec]

theorem matVec_getD (m : List (List Int)) (x : List Int) (i : Nat)
    (h : i < m.length) :
    (matVec m x).getD i 0 = dotProd (m.getD i []) x := by
  rw [List.getD_eq_getElem _ _ (by rw [matVec_length]; exact h),
    List.getD_eq_getElem _ _ h]
  simp [matVec]

theorem QUBO.row_length (p : QUBO) (i : Nat) (h : i < p.q.length) :
    (p.q.getD i []).length = p.q.length := by
  rw [List.getD_eq_getElem _ _ h]
  exact p.hsq _ (List.getElem_mem h)

theorem costOf_eq_quadraticForm (p : QUBO) (x : List Int)
    (hx : x.length = p.num_variables) :
    costOf p x = quadraticForm p.q x := by
  rw [QUBO.num_variables] at hx
  rw [costOf, dotProd_eq_sum x (matVec p.q x)
    (by rw [matVec_length]; exact le_of_eq hx)]
  unfold quadraticForm
  refine Finset.sum_congr rfl (fun i hi => ?_)
  have hi' : i < p.q.length := hx ▸ Finset.mem_range.mp hi
  rw [matVec_getD p.q x i hi',
    dotProd_eq_sum (p.q.getD i []) x (by rw [p.row_length i hi', hx]),
    p.row_length i hi', ← hx, Finset.mul_sum]
  refine Finset.sum_congr rfl (fun j _ => ?_)
  ring

/-- C1: for every vector x with `len(x) = n`, `evaluate_cost(x)` returns
the quadratic form `xᵗQx`; it is deterministic (the same x always yields
the same cost — it is a pure function of the problem and x); and for any
x with `len(x) ≠ n` it fails with `DimensionMismatch`. -/
theorem C1_evaluate_cost_spec (p : QUBO) (x : List Int) :
    (x.length = p.num_variables →
      p.evaluate_cost x = Except.ok (quadraticForm p.q x)) ∧
    (x.length ≠ p.num_variables →
      p.evaluate_cost x = Except.error SolverError.DimensionMismatch) ∧
    (∀ y : List Int, y = x → p.evaluate_cost y = p.evaluate_cost x) := by
  refine ⟨fun h => ?_, fun h => ?_, fun y hy => by rw [hy]⟩
  · rw [QUBO.evaluate_cost, if_pos h, costOf_eq_quadraticForm p x h]
  · rw [QUBO.evaluate_cost, if_neg h]

theorem C1_evaluate_cost_spec_witness :
    qEx.evaluate_cost [1, 1] = Except.ok (quadraticForm qEx.q [1, 1]) ∧
    qEx.evaluate_cost [1] = Except.error SolverError.DimensionMismatch :=
  ⟨(C1_evaluate_cost_spec qEx [1, 1]).1 (by decide),
   (C1_evaluate_cost_spec qEx [1]).2.1 (by decide)⟩

/-- C6: problem construction from a non-square matrix fails with
`DimensionMismatch`; no `QUBO` value (hence no solver state) is ever
created from it, so no timestep can run. -/
theorem C6_nonsquare_construction_fails (m : List (List Int))
    (h : isSquare m = false) :
    mkQUBO m = Except.error SolverError.DimensionMismatch := by
  unfold mkQUBO
  rw [dif_neg (by simp [h])]

theorem C6_nonsquare_construction_fails_witness :
    mkQUBO [[1, 2, 3, 4], [5, 6, 7, 8], [9, 10, 11, 12]] =
      Except.error SolverError.DimensionMismatch :=
  C6_nonsquare_construction_fails _ (by decide)

/-- C5: a run configuration with neither `timeout` nor `target_cost`
fails with `ConfigurationError` at construction (so before any timestep
can execute), while supplying either one alone is accepted. -/
theorem C5_config_requires_stopping_condition (b : Backend) (hp : Hyperparameters) :
    mkSolverConfig none none b hp = Except.error SolverError.ConfigurationError ∧
    (∀ T : Nat, mkSolverConfig (some T) none b hp =
      Except.ok ⟨some T, none, b, hp⟩) ∧
    (∀ c : Int, mkSolverConfig none (some c) b hp =
      Except.ok ⟨none, some c, b, hp⟩) :=
  ⟨rfl, fun _ => rfl, fun _ => rfl⟩

theorem step_best_cost_le (p : QUBO) (hp : Hyperparameters) (st : LoopState) :
    (stepTimestep p hp st).best_cost ≤ st.best_cost := by
  unfold stepTimestep
  dsimp only
  split
  · exact le_of_lt (by assumption)
  · exact le_refl _

/-- C3: within a single run, `best_cost` is monotonically non-increasing
across timesteps: after step t+1 it is at most its value after step t,
for every starting run state. -/
theorem C3_best_cost_monotone (p : QUBO) (hp : Hyperparameters)
    (st : LoopState) (t : Nat) :
    ((stepTimestep p hp)^[t + 1] st).best_cost ≤
      ((stepTimestep p hp)^[t] st).best_cost := by
  rw [Function.iterate_succ_apply']
  exact step_best_cost_le p hp _

/-- C2: two solver runs given the same explicit seed, the same problem,
the same hyperparameters and run configuration produce an identical
Solver Report and an identical timestep-by-timestep spike trajectory. -/
theorem C2_run_determinism (p : QUBO) (cfg : SolverConfig) (seed : Nat)
    (r1 r2 : Option SolverReport) (t1 t2 : Option (List (List Bool)))
    (h1 : r1 = solveReport p cfg seed) (h2 : r2 = solveReport p cfg seed)
    (g1 : t1 = spikeTrajectory p cfg seed) (g2 : t2 = spikeTrajectory p cfg seed) :
    r1 = r2 ∧ t1 = t2 := by
  subst h1 h2 g1 g2
  exact ⟨rfl, rfl⟩

theorem C2_run_determinism_witness :
    solveReport qW (runConfig hpW Backend.CPU) 0 =
      solveReport qW (runConfig hpW Backend.CPU) 0 ∧
    spikeTrajectory qW (runConfig hpW Backend.CPU) 0 =
      spikeTrajectory qW (runConfig hpW Backend.CPU) 0 :=
  C2_run_determinism qW (runConfig hpW Backend.CPU) 0 _ _ _ _ rfl rfl rfl rfl

theorem step_timestep_count (p : QUBO) (hp : Hyperparameters) (st : LoopState) :
    (stepTimestep p hp st).timestep_count = st.timestep_count + 1 := rfl

theorem iterate_timestep_count (p : QUBO) (hp : Hyperparameters)
    (st : LoopState) (k : Nat) :
    ((stepTimestep p hp)^[k] st).timestep_count = st.timestep_count + k := by
  induction k with
  | zero => rfl
  | succ n ih =>
    rw [Function.iterate_succ_apply', step_timestep_count, ih]
    omega

theorem solverLoop_zero (p : QUBO) (hp : Hyperparameters) (tc : Option Int)
    (st : LoopState) :
    solverLoop p hp tc 0 st = (st, TermReason.TimedOut) := rfl

theorem solverLoop_succ (p : QUBO) (hp : Hyperparameters) (tc : Option Int)
    (n : Nat) (st : LoopState) :
    solverLoop p hp tc (n + 1) st =
      if targetReached tc (stepTimestep p hp st).best_cost then
        (stepTimestep p hp st, TermReason.Converged)
      else solverLoop p hp tc n (stepTimestep p hp st) := rfl

theorem solverLoop_timedOut (p : QUBO) (hp : Hyperparameters) (tc : Option Int)
    (fuel : Nat) (st : LoopState)
    (h : ∀ k, k ≤ fuel →
      targetReached tc (((stepTimestep p hp)^[k]) st).best_cost = false) :
    solverLoop p hp tc fuel st =
      ((stepTimestep p hp)^[fuel] st, TermReason.TimedOut) := by
  induction fuel generalizing st with
  | zero => rfl
  | succ n ih =>
    have h1 : targetReached tc (stepTimestep p hp st).best_cost = false := by
      have := h 1 (by omega)
      rwa [Function.iterate_one] at this
    rw [solverLoop_succ, if_neg (by simp [h1]),
      ih (stepTimestep p hp st) (fun k hk => by
        have := h (k + 1) (by omega)
        rwa [Function.iterate_succ_apply] at this),
      ← Function.iterate_succ_apply]

/-- C4: a run configured with `timeout = T` whose target cost is never
reached (at no point during the run does the tracked best cost reach the
target) terminates after exactly T executed timesteps and its Solver
Report carries termination reason `TimedOut`. -/
theorem C4_timeout_runs_exactly_T (p : QUBO) (hp : Hyperparameters)
    (tc : Option Int) (b : Backend) (T seed : Nat)
    (h : ∀ k, k ≤ T →
      targetReached tc (((stepTimestep p hp)^[k]) (initState p seed)).best_cost = false) :
    (solveReport p ⟨some T, tc, b, hp⟩ seed).map SolverReport.timesteps_run = some T ∧
    (solveReport p ⟨some T, tc, b, hp⟩ seed).map SolverReport.reason =
      some TermReason.TimedOut := by
  have hloop := solverLoop_timedOut p hp tc T (initState p seed) h
  have hcount := iterate_timestep_count p hp (initState p seed) T
  have hzero : (initState p seed).timestep_count = 0 := rfl
  have hfull : solveReport p ⟨some T, tc, b, hp⟩ seed =
      some (mkReport ((stepTimestep p hp)^[T] (initState p seed),
        TermReason.TimedOut)) := by
    simp only [solveReport, solveFull, Option.map_some']
    rw [hloop]
  rw [hzero] at hcount
  constructor
  · rw [hfull]
    simp [mkReport, hcount]
  · rw [hfull]
    simp [mkReport]

set_option maxRecDepth 2000

theorem C4_timeout_runs_exactly_T_witness :
    (∀ k, k ≤ 2 →
      targetReached (some (-5))
        (((stepTimestep qW hpW)^[k]) (initState qW 0)).best_cost = false) ∧
    (solveReport qW ⟨some 2, some (-5), Backend.CPU, hpW⟩ 0).map
      SolverReport.timesteps_run = some 2 ∧
    (solveReport qW ⟨some 2, some (-5), Backend.CPU, hpW⟩ 0).map
      SolverReport.reason = some TermReason.TimedOut :=
  ⟨by decide,
   (C4_timeout_runs_exactly_T qW hpW (some (-5)) Backend.CPU 2 0 (by decide)).1,
   (C4_timeout_runs_exactly_T qW hpW (some (-5)) Backend.CPU 2 0 (by decide)).2⟩

/-- C7 counterexample: the backend is not independent of ambient
environment state — `setup` (tutorial lines 156-159) selects a different
backend depending on ambient Loihi 2 availability, so two invocations
whose explicit inputs are identical select different backends under
different environments. -/
theorem C7_backend_ambient_counterexample :
    setupBackend true ≠ setupBackend false := by decide

/-- C7 (amended): within `run`, the backend used in the `SolverConfig`
passed to `solver.solve` is exactly the backend argument handed in (so
identical configurations use identical backends); but that backend value
is selected by `setup` from ambient Loihi 2 availability — `Loihi2` iff
the hardware is reported available, `CPU` iff it is not — not solely by
explicit configuration. -/
theorem C7_backend_selection_amended (hp : Hyperparameters) (la : Bool) :
    (runConfig hp (setupBackend la)).backend = setupBackend la ∧
    (setupBackend la = Backend.Loihi2 ↔ la = true) ∧
    (setupBackend la = Backend.CPU ↔ la = false) := by
  cases la <;> simp [runConfig, setupBackend]

/-- C8: a call to `run` leaves the caller-visible `solution_loihi`
binding unchanged (the assignment inside `run` rebinds only the local
name), so after the `__main__` block's setup, the module-level
`solution_loihi` is still `None` after any number of calls to `run`. -/
theorem C8_run_leaves_module_binding (g : ModuleState) (solver : QUBO)
    (seed n : Nat) (la : Bool) (prior : NpRng) (nv : Nat) :
    (callRun g solver seed).solution_loihi = g.solution_loihi ∧
    ((fun s => callRun s solver seed)^[n]
      (moduleAfterSetup la prior nv)).solution_loihi = none := by
  refine ⟨rfl, ?_⟩
  induction n with
  | zero => rfl
  | succ m ih =>
    rw [Function.iterate_succ_apply']
    exact ih

/-- C9: every call to `setup` mutates process-global state: it
unconditionally sets `Loihi2.preferred_partition` to `"oheogulch"`; it
sets the environment variable `SLURM` to `"1"` when Loihi 2 hardware is
reported available and leaves the environment untouched when it is not;
and no environment variable other than `SLURM` is ever modified. -/
theorem C9_setup_process_effects (la : Bool) (p : ProcessState) :
    (setupProcessEffect la p).preferred_partition = some "oheogulch" ∧
    (la = true → (setupProcessEffect la p).env "SLURM" = some "1") ∧
    (la = false → (setupProcessEffect la p).env = p.env) ∧
    (∀ k, k ≠ "SLURM" → (setupProcessEffect la p).env k = p.env k) := by
  cases la with
  | false => exact ⟨rfl, fun h => by simp at h, fun _ => rfl, fun k _ => rfl⟩
  | true =>
    refine ⟨rfl, fun _ => ?_, fun h => by simp at h, fun k hk => ?_⟩
    · simp [setupProcessEffect, setEnv]
    · simp [setupProcessEffect, setEnv, hk]

theorem C9_setup_process_effects_witness :
    (setupProcessEffect true procInit).preferred_partition = some "oheogulch" ∧
    (setupProcessEffect true procInit).env "SLURM" = some "1" ∧
    (setupProcessEffect true procInit).env "PATH" = procInit.env "PATH" :=
  ⟨(C9_setup_process_effects true procInit).1,
   (C9_setup_process_effects true procInit).2.1 rfl,
   (C9_setup_process_effects true procInit).2.2.2 "PATH" (by decide)⟩

theorem npRandintList_length (lo hi n s : Nat) :
    (npRandintList lo hi n s).length = n := by
  induction n generalizing s with
  | zero => rfl
  | succ m ih => simp [npRandintList, ih]

theorem npRandintList_mem_range (lo hi n s : Nat) (hlt : lo < hi) :
    ∀ r ∈ npRandintList lo hi n s, lo ≤ r ∧ r < hi := by
  induction n generalizing s with
  | zero => intro r hr; simp [npRandintList] at hr
  | succ m ih =>
    intro r hr
    simp only [npRandintList, List.mem_cons] at hr
    rcases hr with h | h
    · have hmod : prngNext s % (hi - lo) < hi - lo := Nat.mod_lt _ (by omega)
      omega
    · exact ih _ r h

/-- C10: the hyperparameter bundle built by `setup` always has
`temperature = 1`, `noise_precision = 16`, and a `refract` vector of
length `num_variables` with every entry r satisfying `5 ≤ r < 20`;
because `np.random.seed(85134)` runs immediately before the draw, the
bundle is identical on every call, whatever the numpy generator state
was before. -/
theorem C10_setup_hyperparameter_values (prior prior' : NpRng) (n : Nat) :
    setupHyperparameters prior n = setupHyperparameters prior' n ∧
    (setupHyperparameters prior n).temperature = 1 ∧
    (setupHyperparameters prior n).noise_precision = 16 ∧
    (setupHyperparameters prior n).refract.length = n ∧
    (∀ r ∈ (setupHyperparameters prior n).refract, 5 ≤ r ∧ r < 20) := by
  refine ⟨rfl, rfl, rfl, npRandintList_length 5 20 n _, ?_⟩
  exact fun r hr => npRandintList_mem_range 5 20 n _ (by omega) r hr

theorem C10_setup_hyperparameter_values_witness :
    setupHyperparameters ⟨0⟩ 3 = setupHyperparameters ⟨999⟩ 3 ∧
    5 ≤ (setupHyperparameters ⟨0⟩ 3).refract.getD 0 0 ∧
    (setupHyperparameters ⟨0⟩ 3).refract.getD 0 0 < 20 :=
  ⟨(C10_setup_hyperparameter_values ⟨0⟩ ⟨999⟩ 3).1,
   ((C10_setup_hyperparameter_values ⟨0⟩ ⟨999⟩ 3).2.2.2.2 _ (by decide)).1,
   ((C10_setup_hyperparameter_values ⟨0⟩ ⟨999⟩ 3).2.2.2.2 _ (by decide)).2⟩
